import Mathlib

set_option autoImplicit false

namespace Garage

/-! Shallow embedding of the `garage` household-inventory application
(Flask + SQLAlchemy).  Database tables become lists of records, the
request-handling decorators become higher-order functions on an explicit
database state, and each route handler of interest is translated
directly from its Python source.  Flash-message texts and redirect
targets are carried verbatim so that user-visible behaviour can be
compared across code paths. -/

/-- Row of the `users` table (src/garage/models/user.py, class `User`).
The Werkzeug password hash is an opaque string here: the claims only
ever overwrite or compare it, never invert it. -/
structure UserRec where
  id : Nat
  username : String
  email : String
  password_hash : String
  is_admin : Bool
deriving DecidableEq, Repr

/-- Row of the `boxes` table (src/garage/models/box.py, class `Box`). -/
structure BoxRec where
  id : Nat
  name : String
  location : Option String
  description : Option String
  qr_code_path : Option String
  image_path : Option String
  user_id : Nat
deriving DecidableEq, Repr

/-- Row of the `items` table (src/garage/models/item.py, class `Item`).
`value` is a `Float` column in the source; the claims only copy and
compare it, so it is carried as `Rat` to keep equality decidable. -/
structure ItemRec where
  id : Nat
  name : String
  quantity : Int
  category : Option String
  value : Rat
  notes : Option String
  box_id : Nat
deriving DecidableEq, Repr

/-- The relational state the request handlers read and write.
`next_item_id` models the primary key the database will assign to the
next inserted `items` row. -/
structure DBState where
  users : List UserRec
  boxes : List BoxRec
  items : List ItemRec
  next_item_id : Nat
deriving DecidableEq, Repr

/-- `Box.query.get(box_id)`: primary-key lookup in the `boxes` table. -/
def findBox (s : DBState) (box_id : Nat) : Option BoxRec :=
  s.boxes.find? (fun b => b.id == box_id)

/-- `Box.query.get(new_box_id)` where the id came from a form field of
Python type `int` (possibly negative, hence `Int`). -/
def findBoxI (s : DBState) (box_id : Int) : Option BoxRec :=
  s.boxes.find? (fun b => (b.id : Int) == box_id)

/-- `Item.query.get(item_id)`: primary-key lookup in the `items` table. -/
def findItem (s : DBState) (item_id : Nat) : Option ItemRec :=
  s.items.find? (fun i => i.id == item_id)

/-- `Box.is_owned_by` (src/garage/models/box.py line 107): the box
belongs to the given user exactly when its `user_id` column equals that
user's id. -/
def BoxRec.is_owned_by (b : BoxRec) (user_id : Nat) : Bool :=
  b.user_id == user_id

/-- Endpoints reachable through `url_for` in the translated handlers. -/
inductive Endpoint where
  | dashboard
  | viewBox (box_id : Nat)
  | login
  | forgotPassword
deriving DecidableEq, Repr

/-- The externally observable outcome of one request. -/
inductive Response where
  /-- HTTP 404 page produced by `get_or_404`. -/
  | abort404
  /-- `flash(message, category)` followed by `redirect(url_for target)`. -/
  | redirectFlash (target : Endpoint) (message : String) (category : String)
  /-- plain `redirect(url_for target)` with no new flash. -/
  | redirectTo (target : Endpoint)
  /-- `render_template template`. -/
  | render (template : String)
  /-- an uncaught attribute error on a dangling foreign key; ruled out by
  the NOT NULL `items.box_id` foreign-key constraint. -/
  | internalError
deriving DecidableEq, Repr

/-- The `owns_box` decorator (src/garage/utils/decorators.py lines
51-102): fetch the box by id (404 when absent), deny with a flash and a
redirect to the dashboard when `is_owned_by` fails, otherwise run the
wrapped handler body `f` on the box. -/
def owns_box (f : DBState → BoxRec → DBState × Response)
    (s : DBState) (current_user_id : Nat) (box_id : Nat) : DBState × Response :=
  match findBox s box_id with
  | none => (s, .abort404)
  | some box =>
    if !(box.is_owned_by current_user_id) then
      (s, .redirectFlash .dashboard
        "You do not have permission to access this box." "danger")
    else
      f s box

/-- The `owns_item` decorator (src/garage/utils/decorators.py lines
105-149): fetch the item by id (404 when absent), resolve its parent
box through `item.box`, deny with a flash and a redirect to the
dashboard when the parent box is not owned, otherwise run the wrapped
handler body `f` on the item and its box. -/
def owns_item (f : DBState → ItemRec → BoxRec → DBState × Response)
    (s : DBState) (current_user_id : Nat) (item_id : Nat) : DBState × Response :=
  match findItem s item_id with
  | none => (s, .abort404)
  | some item =>
    match findBox s item.box_id with
    | none => (s, .internalError)
    | some box =>
      if !(box.is_owned_by current_user_id) then
        (s, .redirectFlash .dashboard
          "You do not have permission to access this item." "danger")
      else
        f s item box

/-- Body of `duplicate_item` (src/garage/routes/items.py lines 213-252)
after the `owns_item` guard: insert a copy of the item with the fresh
primary key, the name suffixed with " (copy)" and every other column
copied, then flash success and redirect back to the box. -/
def duplicate_item_body (s : DBState) (item : ItemRec) (box : BoxRec) :
    DBState × Response :=
  let new_item : ItemRec :=
    { id := s.next_item_id
      name := item.name ++ " (copy)"
      quantity := item.quantity
      category := item.category
      value := item.value
      notes := item.notes
      box_id := box.id }
  ({ s with items := s.items ++ [new_item], next_item_id := s.next_item_id + 1 },
   .redirectFlash (.viewBox box.id)
     ("Item \x22" ++ item.name ++ "\x22 duplicated successfully!") "success")

/-- The `/item/<item_id>/duplicate` route: `owns_item` wrapped around
`duplicate_item_body`. -/
def duplicate_item (s : DBState) (current_user_id : Nat) (item_id : Nat) :
    DBState × Response :=
  owns_item duplicate_item_body s current_user_id item_id

/-- Body of `move_item` (src/garage/routes/items.py lines 158-210) after
the `owns_item` guard.  `new_box_id` is `request.form.get('new_box_id',
type=int)`; the `if not new_box_id` check treats both a missing field
and the value 0 as falsy.  The destination box is then fetched with
`get_or_404` and checked with `is_owned_by`; only when that passes is
the item's `box_id` column updated and committed. -/
def move_item_body (current_user_id : Nat) (new_box_id : Option Int)
    (s : DBState) (item : ItemRec) (box : BoxRec) : DBState × Response :=
  match new_box_id with
  | none =>
    (s, .redirectFlash (.viewBox box.id) "Please select a destination box." "warning")
  | some n =>
    if n == 0 then
      (s, .redirectFlash (.viewBox box.id) "Please select a destination box." "warning")
    else
      match findBoxI s n with
      | none => (s, .abort404)
      | some new_box =>
        if !(new_box.is_owned_by current_user_id) then
          (s, .redirectFlash (.viewBox box.id)
            "You do not have permission to move items to that box." "danger")
        else
          ({ s with items := s.items.map (fun j =>
              if j.id == item.id then { j with box_id := new_box.id } else j) },
           .redirectFlash (.viewBox new_box.id)
            ("Item \x22" ++ item.name ++ "\x22 moved from \x22" ++ box.name ++
              "\x22 to \x22" ++ new_box.name ++ "\x22.") "success")

/-- The `/item/<item_id>/move` route: `owns_item` wrapped around
`move_item_body`. -/
def move_item (s : DBState) (current_user_id : Nat) (item_id : Nat)
    (new_box_id : Option Int) : DBState × Response :=
  owns_item (move_item_body current_user_id new_box_id) s current_user_id item_id

/-! Credential and token service (src/garage/models/user.py and
src/garage/routes/auth.py).  The `itsdangerous` URLSafeTimedSerializer
is embedded structurally: a signed token carries its payload, the salt
and secret key it was produced under and the issuance timestamp; a
verifier accepts the signature exactly when its own salt and secret key
match the token's.  Forging a signature without the secret key is
outside the model. -/

/-- A token produced by `URLSafeTimedSerializer(secret).dumps(payload,
salt)`: the signature is intact for a verifier exactly when the
verifier's secret key and salt equal `signed_with` and `salt`. -/
structure SignedToken where
  payload : String
  salt : String
  signed_with : String
  issued_at : Nat
deriving DecidableEq, Repr

/-- `URLSafeTimedSerializer(secret).dumps(payload, salt)` issued at time
`now` (seconds). -/
def serializer_dumps (secret : String) (payload : String) (salt : String)
    (now : Nat) : SignedToken :=
  { payload := payload, salt := salt, signed_with := secret, issued_at := now }

/-- `URLSafeTimedSerializer(secret).loads(token, salt, max_age)` checked
at time `now`: fails (raises, here `none`) on a signature or salt
mismatch, or when the elapsed age exceeds `max_age`; otherwise returns
the decoded payload. -/
def serializer_loads (secret : String) (token : SignedToken) (salt : String)
    (max_age : Nat) (now : Nat) : Option String :=
  if token.signed_with == secret && token.salt == salt then
    if now - token.issued_at > max_age then none else some token.payload
  else
    none

/-- Werkzeug `generate_password_hash`: an external KDF, opaque to every
claim; embedded as an injective tagging so that only the fact that the
stored hash changes is observable. -/
def generate_password_hash (password : String) : String :=
  "pbkdf2-model$" ++ password

/-- `User.get_reset_token` (src/garage/models/user.py lines 99-116):
serialize the user's email under the fixed salt
`'password-reset-salt'` with the application secret key. -/
def UserRec.get_reset_token (u : UserRec) (secret_key : String) (now : Nat) :
    SignedToken :=
  serializer_dumps secret_key u.email "password-reset-salt" now

/-- `User.verify_reset_token` (src/garage/models/user.py lines 118-146):
decode the token under the same salt and secret with `max_age = expiry`;
on any decode failure return `none`, otherwise look the decoded email up
in the `users` table (`User.query.filter_by(email=email).first()`). -/
def verify_reset_token (s : DBState) (secret_key : String) (now : Nat)
    (token : SignedToken) (expiry : Nat) : Option UserRec :=
  match serializer_loads secret_key token "password-reset-salt" expiry now with
  | none => none
  | some email => s.users.find? (fun u => u.email == email)

/-- The submitted-form branch of `forgot_password`
(src/garage/routes/auth.py lines 121-150): look the submitted email up;
when a user exists, send the reset mail (`mail_ok` is the return value
of `EmailService.send_password_reset`) and flash accordingly; when no
user exists, flash the enumeration-safe wording.  Both branches then
redirect to the login page. -/
def forgot_password (s : DBState) (email : String) (mail_ok : Bool) : Response :=
  match s.users.find? (fun u => u.email == email) with
  | some _user =>
    if mail_ok then
      .redirectFlash .login "A password reset link has been sent to your email." "info"
    else
      .redirectFlash .login "Error sending email. Please try again later." "danger"
  | none =>
    .redirectFlash .login
      "If an account with that email exists, a reset link has been sent." "info"

/-- The submitted-form branch of `reset_password`
(src/garage/routes/auth.py lines 153-179): verify the token; on failure
flash and redirect to the forgot-password page; on success store the new
password hash for the resolved user, commit, flash and redirect to the
login page.  Nothing is recorded about the token itself. -/
def reset_password (s : DBState) (secret_key : String) (now : Nat)
    (token : SignedToken) (expiry : Nat) (new_password : String) :
    DBState × Response :=
  match verify_reset_token s secret_key now token expiry with
  | none =>
    (s, .redirectFlash .forgotPassword
      "Invalid or expired reset link. Please request a new one." "danger")
  | some user =>
    ({ s with users := s.users.map (fun v =>
        if v.id == user.id then
          { v with password_hash := generate_password_hash new_password }
        else v) },
     .redirectFlash .login
       "Your password has been reset successfully! You can now log in." "success")

/-! Storage backends (src/garage/services/storage/).  Python strings are
carried as `List Char` in this part so that the slicing, stripping and
splitting done by `_extract_key_from_url` can be reasoned about
directly.  `urllib.parse.urlparse` is an external collaborator; it is
modelled for absolute `http://` and `https://` URLs: the network
location is everything after the scheme up to the first `/`, `?` or
`#`, and the path is what follows up to the first `?` or `#`
(parameter splitting at `;` is not modelled, and every theorem below
excludes `;` from the strings it quantifies over). -/

/-- Python `str.startswith(("http://", "https://"))`. -/
def hasHttpScheme (url : List Char) : Bool :=
  decide ("http://".data <+: url) || decide ("https://".data <+: url)

/-- The characters following the `http://` or `https://` scheme. -/
def afterScheme (url : List Char) : List Char :=
  if decide ("http://".data <+: url) then url.drop 7 else url.drop 8

/-- `urlparse(url).netloc` for an absolute http(s) URL. -/
def urlNetloc (url : List Char) : List Char :=
  (afterScheme url).takeWhile (fun c => !(c == '/' || c == '?' || c == '#'))

/-- `urlparse(url).path` for an absolute http(s) URL. -/
def urlPath (url : List Char) : List Char :=
  ((afterScheme url).dropWhile (fun c => !(c == '/' || c == '?' || c == '#'))).takeWhile
    (fun c => !(c == '?' || c == '#'))

/-- Python `str.strip('/')`: drop slashes from both ends. -/
def pyStripSlashes (l : List Char) : List Char :=
  ((l.dropWhile (fun c => c == '/')).reverse.dropWhile (fun c => c == '/')).reverse

/-- Python `str.split('/', 1)`: at most one split, at the first slash. -/
def pySplitOnceSlash (l : List Char) : List (List Char) :=
  match l.dropWhile (fun c => c != '/') with
  | [] => [l.takeWhile (fun c => c != '/')]
  | _ :: rest => [l.takeWhile (fun c => c != '/'), rest]

/-- Python `sub in s`: substring containment. -/
def pyContainsSub (sub l : List Char) : Bool :=
  decide (sub <:+: l)

/-- Configuration of `S3StorageBackend`
(src/garage/services/storage/s3.py lines 46-107).  The source field
`prefix` is carried here as `key_prefix` (its original name is reserved
in this development); the factory always passes the configured value
`'garage-inventory'`. -/
structure S3Config where
  bucket_name : String
  region : String
  endpoint_url : Option String
  key_prefix : String
deriving DecidableEq, Repr

/-- `S3StorageBackend._get_key` (s3.py lines 109-124).  `unique_id`
stands for `uuid.uuid4().hex[:8]`, made an explicit argument; for the
`'qr'` image type the key is deterministic and the extension is fixed
to `png`. -/
def s3_get_key (cfg : S3Config) (box_id : Nat) (image_type : String)
    (extension : String) (unique_id : String) : List Char :=
  if image_type == "qr" then
    cfg.key_prefix.data ++ "/qrcodes/box_".data ++ (toString box_id).data ++ ".png".data
  else
    cfg.key_prefix.data ++ "/images/box_".data ++ (toString box_id).data ++ "_".data ++
      unique_id.data ++ ".".data ++ extension.data

/-- `S3StorageBackend._get_url` (s3.py lines 126-138): the
custom-endpoint shape `endpoint/bucket/key` when an endpoint is
configured, otherwise the standard shape
`https://bucket.s3.region.amazonaws.com/key`. -/
def s3_get_url (cfg : S3Config) (key : List Char) : List Char :=
  match cfg.endpoint_url with
  | some endpoint =>
    endpoint.data ++ "/".data ++ cfg.bucket_name.data ++ "/".data ++ key
  | none =>
    "https://".data ++ cfg.bucket_name.data ++ ".s3.".data ++ cfg.region.data ++
      ".amazonaws.com/".data ++ key

/-- `S3StorageBackend._extract_key_from_url` (s3.py lines 140-170):
reject empty or non-http(s) strings; with a custom endpoint, strip and
split the URL path once and require the first component to equal the
bucket name; otherwise require the bucket name to occur in the network
location and return the stripped path. -/
def s3_extract_key_from_url (cfg : S3Config) (url : List Char) :
    Option (List Char) :=
  if url == [] then none
  else if !(hasHttpScheme url) then none
  else
    match cfg.endpoint_url with
    | some _ =>
      match pySplitOnceSlash (pyStripSlashes (urlPath url)) with
      | [b, k] => if b == cfg.bucket_name.data then some k else none
      | _ => none
    | none =>
      if pyContainsSub cfg.bucket_name.data (urlNetloc url) then
        some (pyStripSlashes (urlPath url))
      else
        none

/-- Contents of the S3 bucket: the set of keys currently stored. -/
structure S3State where
  objects : List (List Char)
deriving DecidableEq, Repr

/-- `S3StorageBackend.delete` (s3.py lines 295-335): falsy paths and
non-extractable or empty keys give `false`; otherwise `delete_object`
is issued, which succeeds whether or not the key exists (`remote_ok`
models the remote call outcome; a `ClientError` is caught and gives
`false`). -/
def s3_delete (cfg : S3Config) (st : S3State) (remote_ok : Bool)
    (file_path : List Char) : S3State × Bool :=
  if file_path == [] then (st, false)
  else
    match s3_extract_key_from_url cfg file_path with
    | none => (st, false)
    | some key =>
      if key == [] then (st, false)
      else if remote_ok then ({ objects := st.objects.erase key }, true)
      else (st, false)

/-- Outcome of the remote `head_object` call: success, or a
`ClientError` with the given error code. -/
inductive HeadResult where
  | ok
  | clientError (code : String)
deriving DecidableEq, Repr

/-- A Python exception escaping a service operation. -/
inductive PyExn where
  | clientError (code : String)
  | ioError
  | other
deriving DecidableEq, Repr

/-- The key lookup step of `S3StorageBackend.exists`: `key =
self._extract_key_from_url(file_path); if not key: key = file_path`. -/
def s3_exists_lookup_key (cfg : S3Config) (file_path : List Char) : List Char :=
  match s3_extract_key_from_url cfg file_path with
  | none => file_path
  | some k => if k == [] then file_path else k

/-- `S3StorageBackend.exists` (s3.py lines 349-367): falsy paths give
`false`; the key is the extracted one when extraction yields something
truthy, the raw path otherwise; `head_object` success gives `true`, a
`ClientError` with code 404 gives `false`, and every other
`ClientError` is re-raised. -/
def s3_exists (cfg : S3Config) (head_object : List Char → HeadResult)
    (file_path : List Char) : Except PyExn Bool :=
  if file_path == [] then .ok false
  else
    match head_object (s3_exists_lookup_key cfg file_path) with
    | .ok => .ok true
    | .clientError code =>
      if code == "404" then .ok false else .error (.clientError code)

/-- The local filesystem: the set of paths that currently exist. -/
structure Fs where
  files : List String
deriving DecidableEq, Repr

/-- `LocalStorageBackend.delete` (local.py lines 80-102): falsy paths
give `false`; an existing path is unlinked and gives `true`; a missing
path gives `false` without touching the filesystem. -/
def local_delete (fs : Fs) (file_path : String) : Fs × Bool :=
  if file_path == "" then (fs, false)
  else if fs.files.contains file_path then
    ({ files := fs.files.erase file_path }, true)
  else
    (fs, false)

/-- An uploaded file as seen by `save_image`; only its `filename`
attribute is consulted by the storage layer. -/
structure UploadedFile where
  filename : String
deriving DecidableEq, Repr

/-- The extension computation shared by both `save_image`
implementations: `ext = 'jpg'`, overridden by
`original_name.rsplit('.', 1)[1].lower()` when the name has a dot. -/
def ext_of_filename (original_name : String) : String :=
  if original_name.data.contains '.' then
    String.mk (((original_name.data.reverse.takeWhile (fun c => c != '.')).reverse).map
      Char.toLower)
  else
    "jpg"

/-- The `try`-block body of `LocalStorageBackend.save_image` (local.py
lines 31-57): build the unique filename, write the file (`disk_ok`
models whether `file.save` succeeds or raises) and return the path. -/
def local_save_image_body (base_path : String) (fs : Fs) (disk_ok : Bool)
    (file : UploadedFile) (box_id : Nat) (unique_id : String) :
    Fs × Except PyExn String :=
  let ext := ext_of_filename file.filename
  let filename := "box_" ++ toString box_id ++ "_" ++ unique_id ++ "." ++ ext
  let filepath := base_path ++ "/images/" ++ filename
  if disk_ok then
    ({ files := filepath :: fs.files }, .ok filepath)
  else
    (fs, .error .ioError)

/-- `LocalStorageBackend.save_image`: the body wrapped in
`try/except Exception`, which converts any raised error into a `None`
result. -/
def local_save_image (base_path : String) (fs : Fs) (disk_ok : Bool)
    (file : UploadedFile) (box_id : Nat) (unique_id : String) :
    Fs × Except PyExn (Option String) :=
  match local_save_image_body base_path fs disk_ok file box_id unique_id with
  | (fs', .ok p) => (fs', .ok (some p))
  | (fs', .error _) => (fs', .ok none)

/-- The `try`-block body of `QRService.generate_for_box`
(src/garage/services/qr_service.py lines 40-97): build the payload
`/qr/{box_id}`, encode it (`encode_ok` models whether the `qrcode`
library call succeeds or raises) and hand the raster to
`storage.save_qr`, whose already-caught result is `save_qr_result`. -/
def qr_generate_body (encode_ok : Bool) (save_qr_result : Option String)
    (box_id : Nat) : Except PyExn (Option String) :=
  let _box_url := "/qr/" ++ toString box_id
  if encode_ok then .ok save_qr_result else .error .other

/-- `QRService.generate_for_box`: the body wrapped in
`try/except Exception`, which converts any raised error into a `None`
result. -/
def qr_generate_for_box (encode_ok : Bool) (save_qr_result : Option String)
    (box_id : Nat) : Except PyExn (Option String) :=
  match qr_generate_body encode_ok save_qr_result box_id with
  | .ok r => .ok r
  | .error _ => .ok none

/-! Concrete instances used to evaluate the definitions above on closed
inputs: a two-user database, a box owned by the first user with one
item, and the two storage configurations (standard S3 and a LocalStack
style custom endpoint). -/

/-- A registered user who owns a box. -/
def alice : UserRec :=
  { id := 1, username := "alice", email := "alice@example.com"
    password_hash := generate_password_hash "old-password", is_admin := false }

/-- A second registered user who owns nothing. -/
def bob : UserRec :=
  { id := 2, username := "bob", email := "bob@example.com"
    password_hash := generate_password_hash "hunter2", is_admin := false }

/-- A box owned by `alice`. -/
def atticBox : BoxRec :=
  { id := 1, name := "Attic Bin", location := some "Attic", description := none
    qr_code_path := none, image_path := none, user_id := 1 }

/-- An item contained in `atticBox`. -/
def screwsItem : ItemRec :=
  { id := 1, name := "Screws", quantity := 100, category := some "hardware"
    value := { num := 1, den := 10 }, notes := none, box_id := 1 }

/-- The demonstration database: `alice` and `bob`, one box, one item. -/
def demoState : DBState :=
  { users := [alice, bob], boxes := [atticBox], items := [screwsItem]
    next_item_id := 2 }

/-- The same database with `alice`'s account absent: the one-account
difference used to compare the forgot-password responses. -/
def demoStateNoAlice : DBState :=
  { users := [bob], boxes := [atticBox], items := [screwsItem]
    next_item_id := 2 }

/-- A handler body standing in for a route's business logic when the
theorem only exercises the guard. -/
def trivialBoxHandler : DBState → BoxRec → DBState × Response :=
  fun s _box => (s, .render "boxdetail.html")

/-- A handler body standing in for an item route's business logic. -/
def trivialItemHandler : DBState → ItemRec → BoxRec → DBState × Response :=
  fun s _item _box => (s, .render "itemform.html")

/-- A reset token issued to `alice` at time 0 under secret key `sk`. -/
def aliceToken : SignedToken :=
  alice.get_reset_token "sk" 0

/-- `alice` after a password reset to `newpw`. -/
def aliceReset : UserRec :=
  { alice with password_hash := generate_password_hash "newpw" }

/-- Standard S3 configuration (no custom endpoint). -/
def stdCfg : S3Config :=
  { bucket_name := "mybucket", region := "eu-west-2", endpoint_url := none
    key_prefix := "garage-inventory" }

/-- LocalStack-style configuration with a custom endpoint. -/
def customCfg : S3Config :=
  { bucket_name := "mybucket", region := "eu-west-2"
    endpoint_url := some "http://localhost:4566", key_prefix := "garage-inventory" }

/-- The deterministic QR key for box 42 under the standard config. -/
def demoQrKey : List Char :=
  s3_get_key stdCfg 42 "qr" "png" ""

/-- The URL the standard backend would have returned for `demoQrKey`. -/
def demoQrUrl : List Char :=
  s3_get_url stdCfg demoQrKey

/-- An empty bucket: no stored content at all. -/
def emptyBucket : S3State :=
  { objects := [] }

/-- A remote `head_object` stub that always answers with an
access-denied `ClientError` (code 403). -/
def head403 : List Char → HeadResult :=
  fun _key => .clientError "403"

/-- A second box owned by `bob`, used as a move destination. -/
def bobShelf : BoxRec :=
  { id := 2, name := "Bob Shelf", location := none, description := none
    qr_code_path := none, image_path := none, user_id := 2 }

/-- `demoState` extended with `bobShelf`. -/
def demoStateTwoBoxes : DBState :=
  { demoState with boxes := demoState.boxes ++ [bobShelf] }

/-- Characters that are inert for the URL round trip: everything except
the path separator, the query and fragment delimiters that
`urlparse` splits on, and the parameter separator `;` that the
`urlparse` model above does not treat. -/
def urlSafeChar (c : Char) : Bool :=
  !(c == '/' || c == '?' || c == '#' || c == ';')

/-! Theorems.  Each claim of the specification is settled against the
definitions above; helper lemmas shared between claims come first. -/

/-- Splitting characters are absent from a URL-safe character. -/
theorem urlSafeChar_spec (c : Char) (h : urlSafeChar c = true) :
    (c == '/') = false ∧ (c == '?') = false ∧ (c == '#') = false ∧
    (c == ';') = false := by
  unfold urlSafeChar at h
  simp only [Bool.not_eq_eq_eq_not, Bool.not_true, Bool.or_eq_false_iff] at h
  exact ⟨h.1.1.1, h.1.1.2, h.1.2, h.2⟩

/-- `takeWhile` passes over a block whose characters all satisfy the
predicate. -/
theorem takeWhile_append_left {α : Type} (p : α → Bool) (a b : List α)
    (ha : ∀ c ∈ a, p c = true) :
    (a ++ b).takeWhile p = a ++ b.takeWhile p := by
  induction a with
  | nil => simp
  | cons x xs ih =>
    have hx : p x = true := ha x (by simp)
    simp only [List.cons_append, List.takeWhile_cons, hx, if_true]
    rw [ih (fun c hc => ha c (by simp [hc]))]

/-- `dropWhile` consumes a block whose characters all satisfy the
predicate. -/
theorem dropWhile_append_left {α : Type} (p : α → Bool) (a b : List α)
    (ha : ∀ c ∈ a, p c = true) :
    (a ++ b).dropWhile p = b.dropWhile p := by
  induction a with
  | nil => simp
  | cons x xs ih =>
    have hx : p x = true := ha x (by simp)
    simp only [List.cons_append, List.dropWhile_cons, hx, if_true]
    exact ih (fun c hc => ha c (by simp [hc]))

/-- `takeWhile` keeps a list all of whose elements satisfy the
predicate. -/
theorem takeWhile_all {α : Type} (p : α → Bool) (l : List α)
    (h : ∀ c ∈ l, p c = true) : l.takeWhile p = l := by
  induction l with
  | nil => rfl
  | cons x xs ih =>
    simp only [List.takeWhile_cons, h x (by simp), if_true]
    rw [ih (fun c hc => h c (by simp [hc]))]

/-- `dropWhile` keeps a list whose head fails the predicate. -/
theorem dropWhile_head_false {α : Type} (p : α → Bool) (l : List α)
    (h : ∀ c ∈ l.head?, p c = false) : l.dropWhile p = l := by
  cases l with
  | nil => rfl
  | cons x xs => simp [List.dropWhile_cons, h x (by simp)]

/-- Stripping slashes is the identity on a list that neither starts nor
ends with a slash. -/
theorem pyStripSlashes_eq_self (l : List Char)
    (hhead : ∀ c ∈ l.head?, (c == '/') = false)
    (hlast : ∀ c ∈ l.getLast?, (c == '/') = false) :
    pyStripSlashes l = l := by
  unfold pyStripSlashes
  rw [dropWhile_head_false _ _ hhead]
  rw [dropWhile_head_false _ _ (fun c hc => hlast c (by rwa [List.head?_reverse] at hc))]
  exact List.reverse_reverse l

/-- Every character `digitChar` can produce is URL-safe. -/
theorem urlSafeChar_digitChar (m : Nat) :
    urlSafeChar (Nat.digitChar m) = true := by
  rcases Nat.lt_or_ge m 16 with h | h
  · interval_cases m <;> decide
  · have hstar : Nat.digitChar m = '*' := by
      unfold Nat.digitChar
      repeat rw [if_neg (by omega)]
    rw [hstar]
    decide

/-- Every character `toDigitsCore` appends is URL-safe. -/
theorem urlSafe_toDigitsCore (b fuel : Nat) :
    ∀ (n : Nat) (acc : List Char), (∀ c ∈ acc, urlSafeChar c = true) →
      ∀ c ∈ Nat.toDigitsCore b fuel n acc, urlSafeChar c = true := by
  induction fuel with
  | zero =>
    intro n acc hacc
    simpa [Nat.toDigitsCore] using hacc
  | succ fuel ih =>
    intro n acc hacc c hc
    unfold Nat.toDigitsCore at hc
    simp only [] at hc
    have hcons : ∀ d ∈ Nat.digitChar (n % b) :: acc, urlSafeChar d = true := by
      intro d hd
      rcases List.mem_cons.mp hd with rfl | hmem
      · exact urlSafeChar_digitChar _
      · exact hacc d hmem
    split at hc
    · exact hcons c hc
    · exact ih (n / b) (Nat.digitChar (n % b) :: acc) hcons c hc

/-- Every character of the decimal rendering of a natural number is
URL-safe. -/
theorem urlSafe_natRepr (n : Nat) :
    ∀ c ∈ (toString n).data, urlSafeChar c = true := by
  have hdata : (toString n).data = Nat.toDigitsCore 10 (n + 1) n [] := rfl
  rw [hdata]
  exact urlSafe_toDigitsCore 10 (n + 1) n [] (by simp)

/-- `http://` is not a prefix of anything starting with `https://`. -/
theorem http_not_prefix_https (rest : List Char) :
    ¬("http://".data <+: "https://".data ++ rest) := by
  intro h
  rcases h with ⟨t, ht⟩
  have ht' : ('h' :: 't' :: 't' :: 'p' :: ':' :: '/' :: '/' :: t : List Char) =
      'h' :: 't' :: 't' :: 'p' :: 's' :: ':' :: '/' :: '/' :: rest := ht
  simp at ht'

/-- A URL scheme survives appending more characters. -/
theorem hasHttpScheme_append (e rest : List Char) (h : hasHttpScheme e = true) :
    hasHttpScheme (e ++ rest) = true := by
  unfold hasHttpScheme at h ⊢
  rw [Bool.or_eq_true] at h
  rcases h with h7 | h8
  · rcases of_decide_eq_true h7 with ⟨m, hm⟩
    have hp : "http://".data <+: e ++ rest :=
      ⟨m ++ rest, by rw [← hm, List.append_assoc]⟩
    rw [decide_eq_true hp]
    simp
  · rcases of_decide_eq_true h8 with ⟨m, hm⟩
    have hp : "https://".data <+: e ++ rest :=
      ⟨m ++ rest, by rw [← hm, List.append_assoc]⟩
    rw [decide_eq_true hp]
    simp

/-- Dropping the scheme commutes with appending more characters. -/
theorem afterScheme_append (e rest : List Char) (h : hasHttpScheme e = true) :
    afterScheme (e ++ rest) = afterScheme e ++ rest := by
  unfold hasHttpScheme at h
  rw [Bool.or_eq_true] at h
  unfold afterScheme
  rcases h with h7 | h8
  · rcases of_decide_eq_true h7 with ⟨m, hm⟩
    subst hm
    rw [List.append_assoc]
    have hp1 : "http://".data <+: "http://".data ++ (m ++ rest) :=
      List.prefix_append _ _
    have hp2 : "http://".data <+: "http://".data ++ m :=
      List.prefix_append _ _
    rw [decide_eq_true hp1, decide_eq_true hp2]
    simp only [if_true]
    rw [show (7 : Nat) = ("http://".data : List Char).length from rfl]
    rw [List.drop_left, List.drop_left]
  · rcases of_decide_eq_true h8 with ⟨m, hm⟩
    subst hm
    rw [List.append_assoc]
    rw [decide_eq_false (http_not_prefix_https (m ++ rest))]
    rw [decide_eq_false (http_not_prefix_https m)]
    simp only [Bool.false_eq_true, if_false]
    rw [show (8 : Nat) = ("https://".data : List Char).length from rfl]
    rw [List.drop_left, List.drop_left]

/-- A URL-safe character passes the netloc scan. -/
theorem netChar_of_urlSafe (c : Char) (h : urlSafeChar c = true) :
    (!(c == '/' || c == '?' || c == '#')) = true := by
  obtain ⟨h1, h2, h3, _⟩ := urlSafeChar_spec c h
  simp [h1, h2, h3]

/-- A URL-safe character passes the path scan. -/
theorem pathChar_of_urlSafe (c : Char) (h : urlSafeChar c = true) :
    (!(c == '?' || c == '#')) = true := by
  obtain ⟨_, h2, h3, _⟩ := urlSafeChar_spec c h
  simp [h2, h3]

/-- Stripping slashes from a path `/key`, where the key neither starts
nor ends with a slash, yields the key. -/
theorem pyStripSlashes_slash_cons (key : List Char)
    (hkhead : ∀ c ∈ key.head?, (c == '/') = false)
    (hklast : ∀ c ∈ key.getLast?, (c == '/') = false) :
    pyStripSlashes ('/' :: key) = key := by
  unfold pyStripSlashes
  rw [List.dropWhile_cons]
  rw [if_pos (by decide)]
  rw [dropWhile_head_false _ _ hkhead]
  rw [dropWhile_head_false _ _ (fun c hc => hklast c (by rwa [List.head?_reverse] at hc))]
  exact List.reverse_reverse key

/-- Round trip for the standard URL shape: extracting the key from
`https://bucket.s3.region.amazonaws.com/key` returns the key, for every
bucket and region free of URL-splitting characters and every key that
neither starts nor ends with a slash and contains no query, fragment or
parameter character. -/
theorem extract_standard_url (cfg : S3Config) (key : List Char)
    (hend : cfg.endpoint_url = none)
    (hbucket : ∀ c ∈ cfg.bucket_name.data, urlSafeChar c = true)
    (hregion : ∀ c ∈ cfg.region.data, urlSafeChar c = true)
    (hksafe : ∀ c ∈ key, (c == '?') = false ∧ (c == '#') = false)
    (hkhead : ∀ c ∈ key.head?, (c == '/') = false)
    (hklast : ∀ c ∈ key.getLast?, (c == '/') = false) :
    s3_extract_key_from_url cfg (s3_get_url cfg key) = some key := by
  have hurl : s3_get_url cfg key =
      "https://".data ++ (cfg.bucket_name.data ++ (".s3.".data ++ (cfg.region.data ++
        (".amazonaws.com".data ++ ('/' :: key))))) := by
    unfold s3_get_url
    rw [hend]
    have hsplit : (".amazonaws.com/".data : List Char) =
        ".amazonaws.com".data ++ ['/'] := rfl
    simp [hsplit, List.append_assoc]
  have hne : s3_get_url cfg key ≠ [] := by
    rw [hurl]
    simp
  have hscheme : hasHttpScheme (s3_get_url cfg key) = true := by
    rw [hurl]
    unfold hasHttpScheme
    rw [decide_eq_true (List.prefix_append ("https://".data) _)]
    simp
  have hafter : afterScheme (s3_get_url cfg key) =
      cfg.bucket_name.data ++ (".s3.".data ++ (cfg.region.data ++
        (".amazonaws.com".data ++ ('/' :: key)))) := by
    rw [hurl]
    unfold afterScheme
    rw [decide_eq_false (http_not_prefix_https _)]
    simp only [Bool.false_eq_true, if_false]
    rw [show (8 : Nat) = ("https://".data : List Char).length from rfl]
    rw [List.drop_left]
  have hnet : urlNetloc (s3_get_url cfg key) =
      cfg.bucket_name.data ++ (".s3.".data ++ (cfg.region.data ++
        ".amazonaws.com".data)) := by
    unfold urlNetloc
    rw [hafter]
    rw [takeWhile_append_left _ _ _ (fun c hc => netChar_of_urlSafe c (hbucket c hc))]
    rw [takeWhile_append_left _ _ _ (by decide)]
    rw [takeWhile_append_left _ _ _ (fun c hc => netChar_of_urlSafe c (hregion c hc))]
    rw [takeWhile_append_left _ _ _ (by decide)]
    rw [show List.takeWhile (fun c => !(c == '/' || c == '?' || c == '#')) ('/' :: key)
        = [] from by rw [List.takeWhile_cons]; simp]
    simp
  have hpath : urlPath (s3_get_url cfg key) = '/' :: key := by
    unfold urlPath
    rw [hafter]
    rw [dropWhile_append_left _ _ _ (fun c hc => netChar_of_urlSafe c (hbucket c hc))]
    rw [dropWhile_append_left _ _ _ (by decide)]
    rw [dropWhile_append_left _ _ _ (fun c hc => netChar_of_urlSafe c (hregion c hc))]
    rw [dropWhile_append_left _ _ _ (by decide)]
    rw [dropWhile_head_false _ _ (by intro c hc; simp only [List.head?_cons,
      Option.mem_def, Option.some.injEq] at hc; subst hc; decide)]
    refine takeWhile_all _ _ ?_
    intro c hc
    rcases List.mem_cons.mp hc with rfl | hmem
    · decide
    · have := hksafe c hmem
      simp [this.1, this.2]
  unfold s3_extract_key_from_url
  rw [if_neg (by simp [hne])]
  rw [hscheme]
  simp only [Bool.not_true, Bool.false_eq_true, if_false]
  rw [hend]
  have hbucket_in_net : pyContainsSub cfg.bucket_name.data
      (urlNetloc (s3_get_url cfg key)) = true := by
    rw [hnet]
    exact decide_eq_true (List.IsPrefix.isInfix (List.prefix_append _ _))
  rw [hbucket_in_net]
  simp only [if_true]
  rw [hpath, pyStripSlashes_slash_cons key hkhead hklast]

/-- Round trip for the custom-endpoint shape: extracting the key from
`endpoint/bucket/key` returns the key, for every endpoint of the plain
`scheme://host` form, every nonempty bucket free of URL-splitting
characters, and every nonempty key that neither starts nor ends with a
slash and contains no query, fragment or parameter character. -/
theorem extract_custom_url (cfg : S3Config) (key : List Char) (e : String)
    (hend : cfg.endpoint_url = some e)
    (hscheme_e : hasHttpScheme e.data = true)
    (hhost : ∀ c ∈ afterScheme e.data, (!(c == '/' || c == '?' || c == '#')) = true)
    (hbne : cfg.bucket_name.data ≠ [])
    (hbucket : ∀ c ∈ cfg.bucket_name.data, urlSafeChar c = true)
    (hkne : key ≠ [])
    (hksafe : ∀ c ∈ key, (c == '?') = false ∧ (c == '#') = false)
    (hklast : ∀ c ∈ key.getLast?, (c == '/') = false) :
    s3_extract_key_from_url cfg (s3_get_url cfg key) = some key := by
  have hurl : s3_get_url cfg key =
      e.data ++ ('/' :: (cfg.bucket_name.data ++ ('/' :: key))) := by
    unfold s3_get_url
    rw [hend]
    have h1 : ("/".data : List Char) = ['/'] := rfl
    simp [h1, List.append_assoc]
  have hne : s3_get_url cfg key ≠ [] := by
    rw [hurl]
    simp
  have hscheme : hasHttpScheme (s3_get_url cfg key) = true := by
    rw [hurl]
    exact hasHttpScheme_append e.data _ hscheme_e
  have hafter : afterScheme (s3_get_url cfg key) =
      afterScheme e.data ++ ('/' :: (cfg.bucket_name.data ++ ('/' :: key))) := by
    rw [hurl]
    exact afterScheme_append e.data _ hscheme_e
  have hpath : urlPath (s3_get_url cfg key) =
      '/' :: (cfg.bucket_name.data ++ ('/' :: key)) := by
    unfold urlPath
    rw [hafter]
    rw [dropWhile_append_left _ _ _ hhost]
    rw [dropWhile_head_false _ _ (by intro c hc; simp only [List.head?_cons,
      Option.mem_def, Option.some.injEq] at hc; subst hc; decide)]
    refine takeWhile_all _ _ ?_
    intro c hc
    rcases List.mem_cons.mp hc with rfl | hmem
    · decide
    · rcases List.mem_append.mp hmem with hb | hrest
      · exact pathChar_of_urlSafe c (hbucket c hb)
      · rcases List.mem_cons.mp hrest with rfl | hk
        · decide
        · have := hksafe c hk
          simp [this.1, this.2]
  have hstrip : pyStripSlashes ('/' :: (cfg.bucket_name.data ++ ('/' :: key))) =
      cfg.bucket_name.data ++ ('/' :: key) := by
    refine pyStripSlashes_slash_cons _ ?_ ?_
    · intro c hc
      rcases hb : cfg.bucket_name.data with _ | ⟨b0, bs⟩
      · exact absurd hb hbne
      · rw [hb] at hc
        simp only [List.cons_append, List.head?_cons, Option.mem_def,
          Option.some.injEq] at hc
        subst hc
        exact (urlSafeChar_spec b0 (hbucket b0 (by rw [hb]; simp))).1
    · intro c hc
      rw [List.getLast?_append_cons] at hc
      rcases hk : key with _ | ⟨k0, ks⟩
      · exact absurd hk hkne
      · rw [hk, List.getLast?_cons_cons] at hc
        exact hklast c (by rw [hk]; exact hc)
  have hsplit : pySplitOnceSlash (cfg.bucket_name.data ++ ('/' :: key)) =
      [cfg.bucket_name.data, key] := by
    unfold pySplitOnceSlash
    have hbno : ∀ c ∈ cfg.bucket_name.data, (c != '/') = true := by
      intro c hc
      have := (urlSafeChar_spec c (hbucket c hc)).1
      simp [bne, this]
    rw [dropWhile_append_left _ _ _ hbno]
    rw [show List.dropWhile (fun c => c != '/') ('/' :: key) = '/' :: key from by
      rw [List.dropWhile_cons]; simp]
    rw [takeWhile_append_left _ _ _ hbno]
    rw [show List.takeWhile (fun c => c != '/') ('/' :: key) = [] from by
      rw [List.takeWhile_cons]; simp]
    simp
  unfold s3_extract_key_from_url
  rw [if_neg (by simp [hne])]
  rw [hscheme]
  simp only [Bool.not_true, Bool.false_eq_true, if_false]
  rw [hend]
  rw [hpath, hstrip, hsplit]
  simp

/-- A URL-safe character is neither the query nor the fragment
delimiter. -/
theorem qfChar_of_urlSafe (c : Char) (h : urlSafeChar c = true) :
    (c == '?') = false ∧ (c == '#') = false :=
  ⟨(urlSafeChar_spec c h).2.1, (urlSafeChar_spec c h).2.2.1⟩

/-- Query/fragment freedom is preserved by concatenation. -/
theorem safeQF_append {a b : List Char}
    (ha : ∀ c ∈ a, (c == '?') = false ∧ (c == '#') = false)
    (hb : ∀ c ∈ b, (c == '?') = false ∧ (c == '#') = false) :
    ∀ c ∈ a ++ b, (c == '?') = false ∧ (c == '#') = false := by
  intro c hc
  rcases List.mem_append.mp hc with h | h
  · exact ha c h
  · exact hb c h

/-- Shape facts about every key `_get_key` can produce under a prefix,
extension and unique id free of URL-splitting characters: the key is
nonempty, free of query/fragment characters, and neither starts nor
ends with a slash. -/
theorem s3_get_key_shape (cfg : S3Config) (box_id : Nat)
    (image_type extension unique_id : String)
    (hpne : cfg.key_prefix.data ≠ [])
    (hpfx : ∀ c ∈ cfg.key_prefix.data, urlSafeChar c = true)
    (hext : ∀ c ∈ extension.data, urlSafeChar c = true)
    (huid : ∀ c ∈ unique_id.data, urlSafeChar c = true) :
    s3_get_key cfg box_id image_type extension unique_id ≠ [] ∧
    (∀ c ∈ s3_get_key cfg box_id image_type extension unique_id,
      (c == '?') = false ∧ (c == '#') = false) ∧
    (∀ c ∈ (s3_get_key cfg box_id image_type extension unique_id).head?,
      (c == '/') = false) ∧
    (∀ c ∈ (s3_get_key cfg box_id image_type extension unique_id).getLast?,
      (c == '/') = false) := by
  obtain ⟨p0, ps, hp⟩ : ∃ p0 ps, cfg.key_prefix.data = p0 :: ps := by
    rcases h : cfg.key_prefix.data with _ | ⟨p0, ps⟩
    · exact absurd h hpne
    · exact ⟨p0, ps, rfl⟩
  have hp0 : (p0 == '/') = false :=
    (urlSafeChar_spec p0 (hpfx p0 (by rw [hp]; simp))).1
  have hpQF : ∀ c ∈ cfg.key_prefix.data, (c == '?') = false ∧ (c == '#') = false :=
    fun c hc => qfChar_of_urlSafe c (hpfx c hc)
  have hdQF : ∀ c ∈ (toString box_id).data, (c == '?') = false ∧ (c == '#') = false :=
    fun c hc => qfChar_of_urlSafe c (urlSafe_natRepr box_id c hc)
  have huQF : ∀ c ∈ unique_id.data, (c == '?') = false ∧ (c == '#') = false :=
    fun c hc => qfChar_of_urlSafe c (huid c hc)
  have heQF : ∀ c ∈ extension.data, (c == '?') = false ∧ (c == '#') = false :=
    fun c hc => qfChar_of_urlSafe c (hext c hc)
  unfold s3_get_key
  by_cases himg : (image_type == "qr") = true
  · rw [if_pos himg]
    refine ⟨?_, ?_, ?_, ?_⟩
    · rw [hp]
      simp
    · refine safeQF_append (safeQF_append (safeQF_append hpQF ?_) hdQF) ?_
      · decide
      · decide
    · intro c hc
      rw [hp] at hc
      simp only [List.cons_append, List.head?_cons, Option.mem_def,
        Option.some.injEq] at hc
      subst hc
      exact hp0
    · intro c hc
      rw [show (".png".data : List Char) = '.' :: ['p', 'n', 'g'] from rfl,
        List.getLast?_append_cons] at hc
      simp only [Option.mem_def] at hc
      rw [show (['.', 'p', 'n', 'g'] : List Char).getLast? = some 'g' from rfl] at hc
      cases hc
      decide
  · rw [if_neg himg]
    refine ⟨?_, ?_, ?_, ?_⟩
    · rw [hp]
      simp
    · refine safeQF_append (safeQF_append (safeQF_append (safeQF_append
        (safeQF_append (safeQF_append hpQF ?_) hdQF) ?_) huQF) ?_) heQF
      · decide
      · decide
      · decide
    · intro c hc
      rw [hp] at hc
      simp only [List.cons_append, List.head?_cons, Option.mem_def,
        Option.some.injEq] at hc
      subst hc
      exact hp0
    · intro c hc
      rcases he : extension.data with _ | ⟨e0, es⟩
      · rw [he, List.append_nil,
          show (".".data : List Char) = '.' :: [] from rfl,
          List.getLast?_append_cons] at hc
        simp only [Option.mem_def] at hc
        rw [show (['.'] : List Char).getLast? = some '.' from rfl] at hc
        cases hc
        decide
      · rw [he, List.getLast?_append_cons] at hc
        have hmem : c ∈ e0 :: es := by
          rcases List.mem_cons.mp (List.mem_of_mem_getLast? hc) with rfl | h
          · simp
          · simp [h]
        rw [← he] at hmem
        exact (urlSafeChar_spec c (hext c hmem)).1

/-- In a list whose mapped keys are pairwise distinct, `find?` on a
member's key returns exactly that member. -/
theorem find?_eq_of_nodup_key {α β : Type} [BEq β] [LawfulBEq β]
    (key : α → β) (l : List α) (u : α)
    (hnodup : (l.map key).Nodup) (hmem : u ∈ l) :
    l.find? (fun v => key v == key u) = some u := by
  induction l with
  | nil => cases hmem
  | cons h t ih =>
    rcases List.mem_cons.mp hmem with rfl | hmem'
    · simp [List.find?]
    · have hne : key h ≠ key u := by
        intro he
        have : key u ∈ t.map key := List.mem_map_of_mem key hmem'
        rw [← he] at this
        exact (List.nodup_cons.mp (by simpa using hnodup)).1 this
      have := ih (List.nodup_cons.mp (by simpa using hnodup)).2 hmem'
      simpa [List.find?, beq_eq_false_iff_ne.mpr hne] using this

/-- C1: for every box owned by user `a` and every authenticated user
`b ≠ a`, any request routed through the `owns_box` guard — in
particular the view, edit and delete box handlers, whose bodies are all
instances of `f` — is denied: the database state is returned unchanged
and the response is the permission-denied flash with a redirect to the
dashboard, for every possible handler body `f` (so the body is never
invoked), and for every `b`, whether or not `b` is the id of a valid
user of the system. -/
theorem owns_box_denies_non_owner
    (f : DBState → BoxRec → DBState × Response)
    (s : DBState) (a b box_id : Nat) (box : BoxRec)
    (hfind : findBox s box_id = some box)
    (howner : box.user_id = a)
    (hne : b ≠ a) :
    owns_box f s b box_id =
      (s, .redirectFlash .dashboard
        "You do not have permission to access this box." "danger") := by
  unfold owns_box
  rw [hfind]
  simp [BoxRec.is_owned_by, howner, Ne.symm hne]

/-- Witness for C1: user 2 (`bob`) requesting `atticBox` (owned by user
1) is denied with the state unchanged. -/
theorem owns_box_denies_non_owner_witness :
    owns_box trivialBoxHandler demoState 2 1 =
      (demoState, .redirectFlash .dashboard
        "You do not have permission to access this box." "danger") :=
  owns_box_denies_non_owner trivialBoxHandler demoState 1 2 1 atticBox
    (by decide) (by decide) (by decide)

/-- Counterexample to C7 as stated: in `demoState`, user 2's request for
the nonexistent item 99 yields an HTTP 404 page, while the request for
item 1 (owned by user 1) yields a redirect with a flash message — the
two failure cases are externally distinguishable. -/
theorem owns_item_outcomes_differ_counterexample :
    (owns_item trivialItemHandler demoState 2 99).2 = Response.abort404 ∧
    (owns_item trivialItemHandler demoState 2 1).2 =
      Response.redirectFlash .dashboard
        "You do not have permission to access this item." "danger" ∧
    Response.abort404 ≠
      Response.redirectFlash .dashboard
        "You do not have permission to access this item." "danger" := by
  decide

/-- C7 (amended): for every request targeting an item, the failure case
"item identifier resolves to no entity" yields an HTTP 404 page, while
"item exists but its parent box is owned by a different user" yields a
redirect with a flash message; both leave the state unchanged and never
invoke the handler body, but the two outcomes are distinguishable to
the requester. -/
theorem owns_item_failure_outcomes
    (f : DBState → ItemRec → BoxRec → DBState × Response)
    (s : DBState) (uid item_id : Nat) :
    (findItem s item_id = none →
      owns_item f s uid item_id = (s, .abort404)) ∧
    (∀ item box, findItem s item_id = some item →
      findBox s item.box_id = some box →
      box.user_id ≠ uid →
      owns_item f s uid item_id =
        (s, .redirectFlash .dashboard
          "You do not have permission to access this item." "danger")) := by
  constructor
  · intro hnone
    unfold owns_item
    rw [hnone]
  · intro item box hitem hbox hne
    simp [owns_item, hitem, hbox, BoxRec.is_owned_by, beq_eq_false_iff_ne.mpr hne]

/-- Witness for C7 (amended): the concrete 404 and redirect outcomes in
`demoState`. -/
theorem owns_item_failure_outcomes_witness :
    owns_item trivialItemHandler demoState 2 99 = (demoState, .abort404) ∧
    owns_item trivialItemHandler demoState 2 1 =
      (demoState, .redirectFlash .dashboard
        "You do not have permission to access this item." "danger") :=
  ⟨(owns_item_failure_outcomes trivialItemHandler demoState 2 99).1 (by decide),
   (owns_item_failure_outcomes trivialItemHandler demoState 2 1).2
     screwsItem atticBox (by decide) (by decide) (by decide)⟩

/-- A successful `findBox` returns the row with the requested primary
key. -/
theorem findBox_id (s : DBState) (n : Nat) (b : BoxRec)
    (h : findBox s n = some b) : b.id = n := by
  unfold findBox at h
  simpa using List.find?_some h

/-- A successful `findBoxI` returns the row with the requested primary
key. -/
theorem findBoxI_id (s : DBState) (n : Int) (b : BoxRec)
    (h : findBoxI s n = some b) : (b.id : Int) = n := by
  unfold findBoxI at h
  simpa using List.find?_some h

/-- C9: duplicating an item through the `/item/<id>/duplicate` route
creates exactly one new item whose id is the fresh primary key (distinct
from every existing item's id), whose name is the original name with
" (copy)" appended (hence different from the original name), and whose
quantity, category, unit value, notes and owning-box reference equal the
original's; every pre-existing row — in particular the original item —
is left unchanged. -/
theorem duplicate_item_correct
    (s : DBState) (uid item_id : Nat) (item : ItemRec) (box : BoxRec)
    (hitem : findItem s item_id = some item)
    (hbox : findBox s item.box_id = some box)
    (howned : box.user_id = uid)
    (hfresh : ∀ j ∈ s.items, j.id ≠ s.next_item_id) :
    ∃ new_item : ItemRec,
      (duplicate_item s uid item_id).1.items = s.items ++ [new_item] ∧
      (duplicate_item s uid item_id).1.users = s.users ∧
      (duplicate_item s uid item_id).1.boxes = s.boxes ∧
      new_item.id = s.next_item_id ∧
      (∀ j ∈ s.items, j.id ≠ new_item.id) ∧
      new_item.name = item.name ++ " (copy)" ∧
      new_item.name ≠ item.name ∧
      new_item.quantity = item.quantity ∧
      new_item.category = item.category ∧
      new_item.value = item.value ∧
      new_item.notes = item.notes ∧
      new_item.box_id = item.box_id := by
  have hrun : duplicate_item s uid item_id = duplicate_item_body s item box := by
    simp [duplicate_item, owns_item, hitem, hbox, BoxRec.is_owned_by, howned]
  have hboxid : box.id = item.box_id := findBox_id s item.box_id box hbox
  refine ⟨{ id := s.next_item_id, name := item.name ++ " (copy)"
            quantity := item.quantity, category := item.category
            value := item.value, notes := item.notes, box_id := box.id }, ?_⟩
  rw [hrun]
  refine ⟨rfl, rfl, rfl, rfl, hfresh, rfl, ?_, rfl, rfl, rfl, rfl, hboxid⟩
  intro hcontr
  have hlen := congrArg String.length hcontr
  have hcopy : (" (copy)" : String).length = 7 := rfl
  rw [String.length_append, hcopy] at hlen
  omega

/-- Witness for C9: duplicating `screwsItem` in `demoState` as user 1. -/
theorem duplicate_item_correct_witness :
    ∃ new_item : ItemRec,
      (duplicate_item demoState 1 1).1.items = demoState.items ++ [new_item] ∧
      (duplicate_item demoState 1 1).1.users = demoState.users ∧
      (duplicate_item demoState 1 1).1.boxes = demoState.boxes ∧
      new_item.id = demoState.next_item_id ∧
      (∀ j ∈ demoState.items, j.id ≠ new_item.id) ∧
      new_item.name = screwsItem.name ++ " (copy)" ∧
      new_item.name ≠ screwsItem.name ∧
      new_item.quantity = screwsItem.quantity ∧
      new_item.category = screwsItem.category ∧
      new_item.value = screwsItem.value ∧
      new_item.notes = screwsItem.notes ∧
      new_item.box_id = screwsItem.box_id :=
  duplicate_item_correct demoState 1 1 screwsItem atticBox
    (by decide) (by decide) (by decide) (by decide)

/-- C10: (a) whenever the destination box named in the move form exists
but is not owned by the requesting user, the `/item/<id>/move` route
leaves the whole database state — in particular every field of the item
— unchanged; (b) whenever the route changes the state at all, the
requester owns both the item's parent (source) box and the destination
box. -/
theorem move_item_requires_ownership
    (s : DBState) (uid item_id : Nat) (form_val : Option Int) :
    (∀ n new_box, form_val = some n → findBoxI s n = some new_box →
      new_box.user_id ≠ uid →
      (move_item s uid item_id form_val).1 = s) ∧
    ((move_item s uid item_id form_val).1 ≠ s →
      ∃ item box n new_box,
        findItem s item_id = some item ∧
        findBox s item.box_id = some box ∧
        box.user_id = uid ∧
        form_val = some n ∧
        findBoxI s n = some new_box ∧
        new_box.user_id = uid) := by
  have hcommit : (move_item s uid item_id form_val).1 ≠ s →
      ∃ item box n new_box,
        findItem s item_id = some item ∧
        findBox s item.box_id = some box ∧
        box.user_id = uid ∧
        form_val = some n ∧
        findBoxI s n = some new_box ∧
        new_box.user_id = uid := by
    intro hchanged
    unfold move_item owns_item at hchanged
    cases hitem : findItem s item_id with
    | none => simp [hitem] at hchanged
    | some item =>
      simp only [hitem] at hchanged
      cases hbox : findBox s item.box_id with
      | none => simp [hbox] at hchanged
      | some box =>
        simp only [hbox] at hchanged
        by_cases howned : box.user_id = uid
        case neg =>
          simp [BoxRec.is_owned_by, beq_eq_false_iff_ne.mpr howned] at hchanged
        case pos =>
          simp only [BoxRec.is_owned_by, howned, beq_self_eq_true, Bool.not_true,
            Bool.false_eq_true, if_false, move_item_body] at hchanged
          cases hform : form_val with
          | none => simp [hform] at hchanged
          | some n =>
            simp only [hform] at hchanged
            by_cases hzero : n = 0
            case pos => simp [hzero] at hchanged
            case neg =>
              simp only [beq_eq_false_iff_ne.mpr hzero, Bool.false_eq_true,
                if_false] at hchanged
              cases hdest : findBoxI s n with
              | none => simp [hdest] at hchanged
              | some new_box =>
                simp only [hdest] at hchanged
                by_cases hdowned : new_box.user_id = uid
                case pos =>
                  exact ⟨item, box, n, new_box, rfl, hbox, howned, rfl, hdest, hdowned⟩
                case neg =>
                  simp [BoxRec.is_owned_by, beq_eq_false_iff_ne.mpr hdowned] at hchanged
  refine ⟨?_, hcommit⟩
  rintro n new_box rfl hfind hne
  by_contra hchanged
  obtain ⟨item, box, n', new_box', _, _, _, hform, hdest, hown⟩ := hcommit hchanged
  obtain rfl : n' = n := by injection hform with h; omega
  rw [hfind] at hdest
  injection hdest with h
  exact hne (h ▸ hown)

/-- Witness for C10: in `demoStateTwoBoxes`, user 1's attempt to move
item 1 into `bobShelf` (owned by user 2) leaves the state unchanged. -/
theorem move_item_requires_ownership_witness :
    (move_item demoStateTwoBoxes 1 1 (some 2)).1 = demoStateTwoBoxes :=
  (move_item_requires_ownership demoStateTwoBoxes 1 1 (some 2)).1 2 bobShelf
    rfl (by decide) (by decide)

/-- A token whose elapsed age exceeds the maximum age fails
verification, whatever its signature. -/
theorem verify_token_expired (s : DBState) (secret : String) (now expiry : Nat)
    (token : SignedToken) (hage : expiry < now - token.issued_at) :
    verify_reset_token s secret now token expiry = none := by
  cases hsig : token.signed_with == secret && token.salt == "password-reset-salt" with
  | false => simp [verify_reset_token, serializer_loads, hsig]
  | true => simp [verify_reset_token, serializer_loads, hsig, hage]

/-- A token issued by `get_reset_token`, verified under the same secret
before its maximum age has elapsed, resolves to the issuing user —
provided that user is in the table and emails are unique (the `users`
table enforces a unique constraint on `email`). -/
theorem verify_token_fresh (s : DBState) (secret : String) (u : UserRec)
    (t0 now expiry : Nat) (hmem : u ∈ s.users)
    (hnodup : (s.users.map UserRec.email).Nodup)
    (hage : now - t0 < expiry) :
    verify_reset_token s secret now (u.get_reset_token secret t0) expiry = some u := by
  simp only [verify_reset_token, UserRec.get_reset_token, serializer_dumps,
    serializer_loads, beq_self_eq_true, Bool.and_self, if_true, gt_iff_lt]
  rw [if_neg (by omega)]
  exact find?_eq_of_nodup_key UserRec.email s.users u hnodup hmem

/-- C4: for every reset token, verification with a maximum age smaller
than the token's elapsed age fails (returns no user); and a token
issued by `get_reset_token`, verified with a maximum age larger than
its elapsed age under the same secret (so its signature is intact and
its payload decodes), resolves to exactly the user whose email was
encoded at issuance — given that user's row and the table's email
uniqueness. -/
theorem verify_reset_token_correct
    (s : DBState) (secret : String) (u : UserRec) (t0 now expiry : Nat)
    (hmem : u ∈ s.users)
    (hnodup : (s.users.map UserRec.email).Nodup) :
    (∀ token : SignedToken, expiry < now - token.issued_at →
      verify_reset_token s secret now token expiry = none) ∧
    (now - t0 < expiry →
      verify_reset_token s secret now (u.get_reset_token secret t0) expiry = some u) :=
  ⟨fun token hage => verify_token_expired s secret now expiry token hage,
   fun hage => verify_token_fresh s secret u t0 now expiry hmem hnodup hage⟩

/-- Witness for C4: `alice`'s token issued at time 0 fails at time 4000
with maximum age 3600, and succeeds at time 100 resolving to `alice`. -/
theorem verify_reset_token_correct_witness :
    verify_reset_token demoState "sk" 4000 aliceToken 3600 = none ∧
    verify_reset_token demoState "sk" 100 aliceToken 3600 = some alice :=
  ⟨(verify_reset_token_correct demoState "sk" alice 0 4000 3600
      (by decide) (by decide)).1 aliceToken (by decide),
   (verify_reset_token_correct demoState "sk" alice 0 100 3600
      (by decide) (by decide)).2 (by decide)⟩

/-- Counterexample to C3 as stated: `alice`'s token is used at time 10
to reset her password successfully, yet verifying the very same token
at time 20 still resolves to her (updated) account — the token is not
invalidated by use. -/
theorem reset_token_not_single_use_counterexample :
    (reset_password demoState "sk" 10 aliceToken 3600 "newpw").2 =
      Response.redirectFlash .login
        "Your password has been reset successfully! You can now log in." "success" ∧
    verify_reset_token (reset_password demoState "sk" 10 aliceToken 3600 "newpw").1
        "sk" 20 aliceToken 3600 = some aliceReset := by
  decide

/-- C3 (amended): reset tokens are time-limited but not single-use: a
successful password reset does not invalidate the token, which
continues to verify — resolving to the same account, now carrying the
updated password hash — for as long as its maximum age has not
elapsed. -/
theorem reset_token_survives_use
    (s : DBState) (secret npw : String) (u : UserRec) (t0 now1 now2 expiry : Nat)
    (hmem : u ∈ s.users)
    (hnodup : (s.users.map UserRec.email).Nodup)
    (h1 : now1 - t0 < expiry)
    (h2 : now2 - t0 < expiry) :
    (reset_password s secret now1 (u.get_reset_token secret t0) expiry npw).2 =
      Response.redirectFlash .login
        "Your password has been reset successfully! You can now log in." "success" ∧
    verify_reset_token
        (reset_password s secret now1 (u.get_reset_token secret t0) expiry npw).1
        secret now2 (u.get_reset_token secret t0) expiry =
      some { u with password_hash := generate_password_hash npw } := by
  have hfresh1 := verify_token_fresh s secret u t0 now1 expiry hmem hnodup h1
  have hrun : reset_password s secret now1 (u.get_reset_token secret t0) expiry npw =
      ({ s with users := s.users.map (fun v =>
          if v.id == u.id then
            { v with password_hash := generate_password_hash npw }
          else v) },
       .redirectFlash .login
         "Your password has been reset successfully! You can now log in." "success") := by
    unfold reset_password
    rw [hfresh1]
  constructor
  · rw [hrun]
  · rw [hrun]
    set g := fun v : UserRec =>
      if v.id == u.id then
        { v with password_hash := generate_password_hash npw }
      else v with hg
    have hgu : g u = { u with password_hash := generate_password_hash npw } := by
      simp [hg]
    have hmem' : { u with password_hash := generate_password_hash npw } ∈
        s.users.map g := by
      rw [← hgu]
      exact List.mem_map_of_mem g hmem
    have hemail : UserRec.email ∘ g = UserRec.email := by
      funext v
      simp only [hg, Function.comp_apply]
      split <;> rfl
    have hnodup' : ((s.users.map g).map UserRec.email).Nodup := by
      rw [List.map_map, hemail]
      exact hnodup
    exact verify_token_fresh
      { s with users := s.users.map g } secret
      { u with password_hash := generate_password_hash npw }
      t0 now2 expiry hmem' hnodup' h2

/-- Witness for C3 (amended): the concrete reuse of `alice`'s token. -/
theorem reset_token_survives_use_witness :
    (reset_password demoState "sk" 10 aliceToken 3600 "newpw").2 =
      Response.redirectFlash .login
        "Your password has been reset successfully! You can now log in." "success" ∧
    verify_reset_token (reset_password demoState "sk" 10 aliceToken 3600 "newpw").1
        "sk" 20 aliceToken 3600 = some aliceReset :=
  reset_token_survives_use demoState "sk" "newpw" alice 0 10 20 3600
    (by decide) (by decide) (by decide) (by decide)

/-- C2 (code bug): the forgot-password handler flashes
"A password reset link has been sent to your email." when the account
exists and the mail goes out, but "If an account with that email
exists, a reset link has been sent." when no account matches — two runs
differing only in the existence of the account produce different
user-visible response texts, contradicting the handler's own
enumeration-prevention comment. -/
theorem forgot_password_leaks_account_existence :
    forgot_password demoState "alice@example.com" true =
      Response.redirectFlash .login
        "A password reset link has been sent to your email." "info" ∧
    forgot_password demoStateNoAlice "alice@example.com" true =
      Response.redirectFlash .login
        "If an account with that email exists, a reset link has been sent." "info" ∧
    forgot_password demoState "alice@example.com" true ≠
      forgot_password demoStateNoAlice "alice@example.com" true := by
  decide

/-- C6: for every key the object-storage backend can generate — the
deterministic QR shape and the uploaded-image shape, under any bucket,
region, prefix, extension and unique id free of the characters `/ ? #
;` that URL parsing splits on (the configured values
`garage-inventory`, hex ids and the allowed image extensions all
qualify), with the bucket and prefix nonempty — extracting the key back
out of the URL constructed for it yields exactly the original key, both
for the standard provider shape and for a custom endpoint of the plain
`scheme://host` form; hence a URL returned by a save operation, passed
into `delete` or `exists`, resolves to the key that was written. -/
theorem s3_url_key_round_trip
    (cfg : S3Config) (box_id : Nat) (image_type extension unique_id : String)
    (hbne : cfg.bucket_name.data ≠ [])
    (hbucket : ∀ c ∈ cfg.bucket_name.data, urlSafeChar c = true)
    (hregion : ∀ c ∈ cfg.region.data, urlSafeChar c = true)
    (hpne : cfg.key_prefix.data ≠ [])
    (hpfx : ∀ c ∈ cfg.key_prefix.data, urlSafeChar c = true)
    (hext : ∀ c ∈ extension.data, urlSafeChar c = true)
    (huid : ∀ c ∈ unique_id.data, urlSafeChar c = true)
    (hendpoint : ∀ e, cfg.endpoint_url = some e →
      hasHttpScheme e.data = true ∧
      ∀ c ∈ afterScheme e.data, (!(c == '/' || c == '?' || c == '#')) = true) :
    s3_extract_key_from_url cfg
      (s3_get_url cfg (s3_get_key cfg box_id image_type extension unique_id)) =
    some (s3_get_key cfg box_id image_type extension unique_id) := by
  obtain ⟨hkne, hksafe, hkhead, hklast⟩ :=
    s3_get_key_shape cfg box_id image_type extension unique_id hpne hpfx hext huid
  cases hc : cfg.endpoint_url with
  | none => exact extract_standard_url cfg _ hc hbucket hregion hksafe hkhead hklast
  | some e =>
    obtain ⟨hs, hh⟩ := hendpoint e hc
    exact extract_custom_url cfg _ e hc hs hh hbne hbucket hkne hksafe hklast

/-- Witness for C6: the QR key of box 42 under the standard shape and
an uploaded-image key under the LocalStack custom-endpoint shape both
survive the URL round trip. -/
theorem s3_url_key_round_trip_witness :
    s3_extract_key_from_url stdCfg
        (s3_get_url stdCfg (s3_get_key stdCfg 42 "qr" "png" "")) =
      some (s3_get_key stdCfg 42 "qr" "png" "") ∧
    s3_extract_key_from_url customCfg
        (s3_get_url customCfg (s3_get_key customCfg 42 "box" "jpg" "a1b2c3d4")) =
      some (s3_get_key customCfg 42 "box" "jpg" "a1b2c3d4") :=
  ⟨s3_url_key_round_trip stdCfg 42 "qr" "png" "" (by decide) (by decide) (by decide)
      (by decide) (by decide) (by decide) (by decide)
      (by intro e h; simp [stdCfg] at h),
   s3_url_key_round_trip customCfg 42 "box" "jpg" "a1b2c3d4" (by decide) (by decide)
      (by decide) (by decide) (by decide) (by decide) (by decide)
      (by
        intro e h
        rw [show customCfg.endpoint_url = some "http://localhost:4566" from rfl] at h
        injection h with h
        subst h
        exact ⟨by decide, by decide⟩)⟩

/-- Counterexample to C5 as stated: the S3 backend's `delete`, given
the URL of a key that is not present in the (empty) bucket, extracts
the key, issues `delete_object` — which succeeds whether or not the
object exists — and returns `true`, not `false`. -/
theorem s3_delete_missing_counterexample :
    s3_extract_key_from_url stdCfg demoQrUrl = some demoQrKey ∧
    demoQrKey ∉ emptyBucket.objects ∧
    s3_delete stdCfg emptyBucket true demoQrUrl = (emptyBucket, true) := by
  decide

/-- C5 (amended): the local backend returns `false` (and does not
raise) when the path does not exist; the S3 backend returns `false`
only for locations whose key cannot be extracted (or is empty), and
otherwise reports the outcome of `delete_object`, which succeeds — and
makes `delete` return `true` — whether or not the object exists. -/
theorem delete_missing_content_behaviour
    (fs : Fs) (p : String) (hp : p ∉ fs.files)
    (cfg : S3Config) (st : S3State) (url key : List Char)
    (hk : s3_extract_key_from_url cfg url = some key) (hk0 : key ≠ []) :
    local_delete fs p = (fs, false) ∧
    (∀ url', s3_extract_key_from_url cfg url' = none →
      s3_delete cfg st true url' = (st, false)) ∧
    s3_delete cfg st true url = ({ objects := st.objects.erase key }, true) := by
  refine ⟨?_, ?_, ?_⟩
  · unfold local_delete
    by_cases hempty : p = ""
    · rw [if_pos (by simpa using hempty)]
    · rw [if_neg (by simpa using hempty)]
      rw [if_neg (by simpa using hp)]
  · intro url' hnone
    unfold s3_delete
    by_cases hempty : url' = []
    · rw [if_pos (by simpa using hempty)]
    · rw [if_neg (by simpa using hempty), hnone]
  · have hne : url ≠ [] := by
      intro hcontr
      rw [hcontr] at hk
      simp [s3_extract_key_from_url] at hk
    unfold s3_delete
    rw [if_neg (by simpa using hne), hk]
    simp [beq_eq_false_iff_ne.mpr hk0]

/-- Witness for C5 (amended): deleting a missing local file returns
`false`; the S3 backend deletes `demoQrUrl` from the empty bucket and
returns `true`. -/
theorem delete_missing_content_behaviour_witness :
    local_delete { files := ["static/images/box_1_aa.png"] }
        "/nonexistent/file.png" =
      ({ files := ["static/images/box_1_aa.png"] }, false) ∧
    s3_delete stdCfg emptyBucket true demoQrUrl =
      ({ objects := emptyBucket.objects.erase demoQrKey }, true) :=
  ⟨(delete_missing_content_behaviour { files := ["static/images/box_1_aa.png"] }
      "/nonexistent/file.png" (by decide) stdCfg emptyBucket demoQrUrl demoQrKey
      (by decide) (by decide)).1,
   (delete_missing_content_behaviour { files := ["static/images/box_1_aa.png"] }
      "/nonexistent/file.png" (by decide) stdCfg emptyBucket demoQrUrl demoQrKey
      (by decide) (by decide)).2.2⟩

/-- Counterexample to C8 as stated: `S3StorageBackend.exists`, asked
about `demoQrUrl` while the remote answers with an access-denied
`ClientError` (code 403), re-raises the exception past the service
boundary instead of returning a failure indicator. -/
theorem s3_exists_propagates_counterexample :
    s3_exists stdCfg head403 demoQrUrl = .error (.clientError "403") := rfl

/-- C8 (amended): the local save and QR generation operations always
return an explicit success-or-`None` indicator and never let an
exception escape, whatever their oracles do; `S3StorageBackend.exists`,
however, propagates exactly the remote `ClientError`s whose code is
not 404. -/
theorem service_boundary_failure_indicators
    (base_path : String) (fs : Fs) (disk_ok : Bool) (file : UploadedFile)
    (box_id : Nat) (unique_id : String) (encode_ok : Bool)
    (save_res : Option String) (cfg : S3Config)
    (head : List Char → HeadResult) (p : List Char) :
    (∃ v, (local_save_image base_path fs disk_ok file box_id unique_id).2 = .ok v) ∧
    (∃ v, qr_generate_for_box encode_ok save_res box_id = .ok v) ∧
    (∀ e, s3_exists cfg head p = .error e →
      ∃ code, e = .clientError code ∧ code ≠ "404") := by
  refine ⟨?_, ?_, ?_⟩
  · unfold local_save_image
    rcases local_save_image_body base_path fs disk_ok file box_id unique_id with
      ⟨fs', r⟩
    cases r with
    | ok v => exact ⟨some v, rfl⟩
    | error e => exact ⟨none, rfl⟩
  · unfold qr_generate_for_box
    cases qr_generate_body encode_ok save_res box_id with
    | ok v => exact ⟨v, rfl⟩
    | error e => exact ⟨none, rfl⟩
  · intro e he
    unfold s3_exists at he
    split at he
    · cases he
    · cases hh : head (s3_exists_lookup_key cfg p) with
      | ok => simp only [hh] at he; cases he
      | clientError code =>
        simp only [hh] at he
        by_cases h404 : code = "404"
        · rw [if_pos (by simpa using h404)] at he
          cases he
        · rw [if_neg (by simpa using h404)] at he
          cases he
          exact ⟨code, rfl, h404⟩

/-- Witness for C8 (amended): concrete instances of all three
conjuncts, including the 403 propagation. -/
theorem service_boundary_failure_indicators_witness :
    (∃ v, (local_save_image "static" { files := [] } true
      { filename := "photo.JPG" } 7 "abcd1234").2 = .ok v) ∧
    (∃ v, qr_generate_for_box true (some "static/qrcodes/box_7.png") 7 = .ok v) ∧
    (∃ code, PyExn.clientError "403" = .clientError code ∧ code ≠ "404") :=
  ⟨(service_boundary_failure_indicators "static" { files := [] } true
      { filename := "photo.JPG" } 7 "abcd1234" true (some "static/qrcodes/box_7.png")
      stdCfg head403 demoQrUrl).1,
   (service_boundary_failure_indicators "static" { files := [] } true
      { filename := "photo.JPG" } 7 "abcd1234" true (some "static/qrcodes/box_7.png")
      stdCfg head403 demoQrUrl).2.1,
   (service_boundary_failure_indicators "static" { files := [] } true
      { filename := "photo.JPG" } 7 "abcd1234" true (some "static/qrcodes/box_7.png")
      stdCfg head403 demoQrUrl).2.2 (.clientError "403") rfl⟩

end Garage
